import Mathlib

/-!
Verification development for the twag curation pipeline.

The visual-selector definitions below are a shallow embedding of
`src/twag/web/frontend/src/components/feed/articleVisuals.ts`; the
quote-block definitions embed the recursive `QuoteNode` component; the
scorer tier mapping and the account ledger are modelled from the spec
because their backend implementation is not part of the repository
sources provided.

JavaScript strings are modelled as Lean `String` (optional/nullable
fields as `Option String`), JS regular-expression `.test` calls as
executable scans over the character list, and the JS `\s` class is
restricted to ASCII whitespace.
-/

namespace Twag

/-! ### JS helper semantics -/

/-- Truthiness of a JS string-or-nullish value: `null`/`undefined` and `""` are falsy. -/
def jsTruthy : Option String → Bool
  | none => false
  | some s => s ≠ ""

/-- JS `x || d` on a string-or-nullish value. -/
def jsOr (o : Option String) (d : String) : String :=
  match o with
  | none => d
  | some s => if s = "" then d else s

/-- JS `String.prototype.toLowerCase` (ASCII letters), mapped over the
character list. -/
def jsToLower (s : String) : String := String.mk (s.toList.map Char.toLower)

/-! ### Character classes of the JS regexes -/

/-- JS regex `\w`: ASCII letters, digits and underscore. -/
def isWordChar (c : Char) : Bool := c.isAlphanum || c = '_'

/-- JS regex `\s`, restricted to ASCII whitespace. -/
def isSpaceChar (c : Char) : Bool :=
  c = ' ' || c = '\t' || c = '\n' || c = '\r' || c = '\x0b' || c = '\x0c'

/-- Word boundary `\b` holds before position `i` (the match there starts with a word char). -/
def boundaryBefore (cs : List Char) (i : Nat) : Bool :=
  i = 0 || !isWordChar (cs.getD (i - 1) ' ')

/-- Word boundary `\b` holds after position `j - 1` (the match there ends with a word char). -/
def boundaryAfter (cs : List Char) (j : Nat) : Bool :=
  cs.length ≤ j || !isWordChar (cs.getD j ' ')

/-- The literal word `w` occurs at position `i`. -/
def matchesAt (cs : List Char) (i : Nat) (w : List Char) : Bool :=
  (cs.drop i).take w.length = w

/-- `\b w \b` matches at position `i` (for `w` starting and ending in word chars). -/
def wordAt (cs : List Char) (i : Nat) (w : List Char) : Bool :=
  boundaryBefore cs i && matchesAt cs i w && boundaryAfter cs (i + w.length)

/-- Length of the maximal digit run `\d+` starting at position `i`. -/
def digitRun (cs : List Char) (i : Nat) : Nat :=
  ((cs.drop i).takeWhile Char.isDigit).length

/-! ### The three vocabulary regexes of `articleVisuals.ts` -/

/-- Plain-word alternatives of `TEXTUAL_DATA_RE` (all but `run[-\s]?rate`). -/
def textualWords : List String :=
  ["chart", "graph", "table", "capex", "revenue", "margin", "growth", "yoy",
   "qoq", "forecast", "projection", "backlog", "roi", "ebitda", "eps"]

/-- The `run[-\s]?rate` alternative of `TEXTUAL_DATA_RE` matches at position `i`. -/
def runRateAt (cs : List Char) (i : Nat) : Bool :=
  boundaryBefore cs i && matchesAt cs i "run".toList &&
    ((matchesAt cs (i + 3) "rate".toList && boundaryAfter cs (i + 7)) ||
     (i + 3 < cs.length && (cs.getD (i + 3) 'x' = '-' || isSpaceChar (cs.getD (i + 3) 'x')) &&
      matchesAt cs (i + 4) "rate".toList && boundaryAfter cs (i + 8)))

/-- `TEXTUAL_DATA_RE.test`. -/
def textualDataTest (s : String) : Bool :=
  let cs := s.toList
  (List.range cs.length).any fun i =>
    textualWords.any (fun w => wordAt cs i w.toList) || runRateAt cs i

/-- Unit alternatives `(b|m|bn|mn|trillion|billion|million)` of `NUMERIC_DATA_RE`. -/
def numericUnits : List String :=
  ["b", "m", "bn", "mn", "trillion", "billion", "million"]

/-- A unit alternative followed by `\b` matches at position `p`. -/
def unitAt (cs : List Char) (p : Nat) : Bool :=
  numericUnits.any fun u => matchesAt cs p u.toList && boundaryAfter cs (p + u.length)

/-- The `\b\d+(\.\d+)?%` alternative of `NUMERIC_DATA_RE` matches at position `i`. -/
def percentAt (cs : List Char) (i : Nat) : Bool :=
  boundaryBefore cs i && 1 ≤ digitRun cs i &&
    (let e := i + digitRun cs i
     cs.getD e ' ' = '%' ||
       (cs.getD e ' ' = '.' && 1 ≤ digitRun cs (e + 1) &&
        cs.getD (e + 1 + digitRun cs (e + 1)) ' ' = '%'))

/-- The `\b\d+(\.\d+)?\s?(b|m|bn|mn|trillion|billion|million)\b` alternative
matches at position `i`. -/
def numberUnitAt (cs : List Char) (i : Nat) : Bool :=
  boundaryBefore cs i && 1 ≤ digitRun cs i &&
    (let e := i + digitRun cs i
     let p := if cs.getD e ' ' = '.' && 1 ≤ digitRun cs (e + 1) then
                e + 1 + digitRun cs (e + 1)
              else e
     unitAt cs p || (isSpaceChar (cs.getD p ' ') && p < cs.length && unitAt cs (p + 1)))

/-- `NUMERIC_DATA_RE.test`. -/
def numericDataTest (s : String) : Bool :=
  let cs := s.toList
  cs.contains '$' ||
    (List.range cs.length).any fun i => percentAt cs i || numberUnitAt cs i

/-- Word alternatives of `NOISE_RE`. -/
def noiseWords : List String :=
  ["meme", "reaction image", "shitpost", "joke", "selfie", "portrait"]

/-- `NOISE_RE.test`. -/
def noiseTest (s : String) : Bool :=
  let cs := s.toList
  (List.range cs.length).any fun i => noiseWords.any fun w => wordAt cs i w.toList

/-! ### Data model of `articleVisuals.ts` / `api/types.ts` -/

/-- The `chart` sub-object of a `MediaItem` (vision analysis). -/
structure ChartAnalysis where
  type : Option String := none
  description : Option String := none
  insight : Option String := none
  implication : Option String := none
  tickers : Option (List String) := none
deriving DecidableEq, Repr

/-- The `table` sub-object of a `MediaItem` (vision analysis). -/
structure TableAnalysis where
  title : Option String := none
  description : Option String := none
  columns : Option (List String) := none
  rows : Option (List (List String)) := none
  summary : Option String := none
  tickers : Option (List String) := none
deriving DecidableEq, Repr

/-- `MediaItem` from `api/types.ts` (fields touched by the visual selector). -/
structure MediaItem where
  type : String := ""
  url : Option String := none
  alt_text : Option String := none
  content : Option String := none
  analysis : Option String := none
  kind : Option String := none
  short_description : Option String := none
  prose_text : Option String := none
  prose_summary : Option String := none
  chart : Option ChartAnalysis := none
  table : Option TableAnalysis := none
deriving DecidableEq, Repr

/-- `ArticleTopVisual`: the LLM-supplied top-visual hint. -/
structure ArticleTopVisual where
  url : Option String := none
  kind : Option String := none
  key_takeaway : Option String := none
  why_important : Option String := none
deriving DecidableEq, Repr

/-- `DataVisual`: one selected visual in the output of the selector. -/
structure DataVisual where
  url : String
  kind : String
  isTop : Bool
  keyTakeaway : String
  whyImportant : String
deriving DecidableEq, Repr

/-! ### The visual selector -/

/-- `DATA_KINDS`. -/
def DATA_KINDS : List String := ["chart", "table", "document", "screenshot"]

/-- `buildTextBlob`: concatenation of the present, non-empty text fields, lowercased. -/
def buildTextBlob (item : MediaItem) : String :=
  jsToLower (String.intercalate " "
    (([item.short_description, item.prose_summary, item.prose_text,
       item.alt_text].filterMap id).filter (fun s => s ≠ "")))

/-- `looksDataLikeText`. -/
def looksDataLikeText (text : String) : Bool :=
  if text = "" then false
  else if noiseTest text then false
  else textualDataTest text || numericDataTest text

/-- `inferKind`. -/
def inferKind (item : MediaItem) : String :=
  let rawKind := jsToLower (item.kind.getD "")
  if DATA_KINDS.contains rawKind then rawKind
  else if (match item.chart with
           | some c => jsTruthy c.description || jsTruthy c.insight || jsTruthy c.implication
           | none => false) then "chart"
  else if (match item.table with
           | some t => (match t.columns with
                        | some cols => cols.length ≠ 0
                        | none => false) || jsTruthy t.summary
           | none => false) then "table"
  else if looksDataLikeText (buildTextBlob item) then "chart"
  else rawKind

/-- `extractTakeaway`. -/
def extractTakeaway (item : MediaItem) (kind : String) : String :=
  if kind = "chart" then
    (match item.chart with
     | some c => (c.insight <|> c.implication <|> c.description).getD ""
     | none => "")
  else if kind = "table" then
    (match item.table with
     | some t => (t.summary <|> t.description).getD ""
     | none => "")
  else if kind = "document" || kind = "screenshot" then
    (item.prose_summary <|> item.short_description).getD ""
  else item.short_description.getD ""

/-- `isRelevantVisual`. -/
def isRelevantVisual (item : MediaItem) (kind : String) : Bool :=
  if DATA_KINDS.contains kind then true
  else looksDataLikeText (buildTextBlob item)

/-- Priority map `(chart 0, table 1, screenshot 2, document 3)[k] ?? 9`. -/
def kindPriority (k : String) : Nat :=
  if k = "chart" then 0
  else if k = "table" then 1
  else if k = "screenshot" then 2
  else if k = "document" then 3
  else 9

/-- One entry of the `extras` array: a priority paired with the built visual. -/
structure RankedVisual where
  priority : Nat
  visual : DataVisual
deriving DecidableEq, Repr

/-- The top-visual section of `buildArticleVisuals` (lines 79-93): zero or one
primary visual, pushed when the hint has a truthy URL and passes the relevance
check on its kind or its takeaway text. -/
def topVisuals (topVisual : Option ArticleTopVisual) : List DataVisual :=
  match topVisual with
  | none => []
  | some tv =>
    if jsTruthy tv.url then
      let topKind := jsToLower (jsOr tv.kind "visual")
      let topText := jsToLower (jsOr tv.key_takeaway "" ++ " " ++ jsOr tv.why_important "")
      if DATA_KINDS.contains topKind || looksDataLikeText topText then
        [{ url := tv.url.getD ""
           kind := if DATA_KINDS.contains topKind then topKind else "chart"
           isTop := true
           keyTakeaway := jsOr tv.key_takeaway ""
           whyImportant := jsOr tv.why_important "" }]
      else []
    else []

/-- The media-item loop of `buildArticleVisuals` (lines 95-113): walk the
candidates in order, skip falsy or already-seen URLs and irrelevant items,
and emit the remaining ones with their kind priority, adding each emitted
URL to the seen set. -/
def collectExtras (seen : List String) : List MediaItem → List RankedVisual
  | [] => []
  | item :: rest =>
    if !jsTruthy item.url || seen.contains (item.url.getD "") then
      collectExtras seen rest
    else
      let kind := inferKind item
      if !isRelevantVisual item kind then collectExtras seen rest
      else
        let normalizedKind := if DATA_KINDS.contains kind then kind else "chart"
        { priority := kindPriority normalizedKind
          visual := { url := item.url.getD ""
                      kind := normalizedKind
                      isTop := false
                      keyTakeaway := extractTakeaway item kind
                      whyImportant := "" } }
          :: collectExtras (item.url.getD "" :: seen) rest

/-- Stable insertion of an element in front of all entries of priority `≥` its
own, after all entries of strictly smaller priority. -/
def insertRanked (e : RankedVisual) : List RankedVisual → List RankedVisual
  | [] => [e]
  | x :: xs => if x.priority < e.priority then x :: insertRanked e xs else e :: x :: xs

/-- Stable sort by ascending priority, the semantics of
`extras.sort((a, b) => a.priority - b.priority)` (JS `Array.prototype.sort`
is stable). -/
def sortRanked : List RankedVisual → List RankedVisual
  | [] => []
  | e :: rest => insertRanked e (sortRanked rest)

/-- `buildArticleVisuals`: the selector entry point. `maxItems` is an `Int` so
that the nonpositive guard of line 74 is modelled for negative inputs too;
the final loop appends sorted extras only while the output is shorter than
`maxItems`. -/
def buildArticleVisuals (topVisual : Option ArticleTopVisual)
    (mediaItems : Option (List MediaItem)) (maxItems : Int) : List DataVisual :=
  if maxItems ≤ 0 then []
  else
    let tops := topVisuals topVisual
    let extras := collectExtras (tops.map (fun v => v.url)) (mediaItems.getD [])
    tops ++ ((sortRanked extras).take (maxItems.toNat - tops.length)).map (fun e => e.visual)

/-! ### Quote-embed chain (`QuoteNode` in the recursive `QuoteBlock` variant) -/

/-- `QuoteEmbed` from `api/types.ts`, in the variant carrying a nested
`quote_embed` chain as consumed by the recursive `QuoteBlock`. -/
inductive QuoteEmbed where
  | mk (id : String) (author_handle : String) (author_name : Option String)
       (content : Option String) (created_at : Option String)
       (quote_embed : Option QuoteEmbed)

/-- The nested quote of a `QuoteEmbed`, if any. -/
def QuoteEmbed.quoteEmbed : QuoteEmbed → Option QuoteEmbed
  | .mk _ _ _ _ _ q => q

/-- Number of posts in the quote chain rooted at `q` (the root included). -/
def chainLength : QuoteEmbed → Nat
  | .mk _ _ _ _ _ none => 1
  | .mk _ _ _ _ _ (some sub) => 1 + chainLength sub

/-- The depths of the nodes rendered by `QuoteNode({quote, depth})`: the node
itself is always rendered, and its nested quote is expanded only when
`depth < 2`. -/
def quoteNodeDepths : QuoteEmbed → Nat → List Nat
  | .mk _ _ _ _ _ none, depth => [depth]
  | .mk _ _ _ _ _ (some sub), depth =>
    depth :: (if depth < 2 then quoteNodeDepths sub (depth + 1) else [])

/-- The depths rendered by `QuoteBlock({quote})`, which starts the recursion
at depth 0. -/
def quoteBlockDepths (q : QuoteEmbed) : List Nat := quoteNodeDepths q 0

/-! ### Scorer tier mapping and alert gate

Modelled from the spec: the scorer backend that derives a post's signal
tier from its numeric score, and the alert gate, are not part of the
repository sources provided (only the README scoring table and the
frontend consumers are). The spec fixes the step function
`[8,10] to high_signal, [6,8) to market_relevant, [4,6) to news,
[0,4) to noise` and the default alert threshold 8. -/

/-- The four post signal tiers. -/
inductive SignalTier where
  | high_signal
  | market_relevant
  | news
  | noise
deriving DecidableEq, Repr

/-- Modelled from the spec: the fixed step function from score to tier
(scorer backend absent from the sources). Scores are exact rationals. -/
def tierOfScore (score : ℚ) : SignalTier :=
  if 8 ≤ score then .high_signal
  else if 6 ≤ score then .market_relevant
  else if 4 ≤ score then .news
  else .noise

/-- Modelled from the spec: default alert threshold (score `≥ 8`). -/
def alertThreshold : ℚ := 8

/-- Modelled from the spec: a scored post is an alert candidate when its
score meets the alert threshold. -/
def isAlertCandidate (score : ℚ) : Bool := alertThreshold ≤ score

/-! ### Account ledger weight operations

Modelled from the spec: the account-ledger backend (`twag accounts
boost/decay`) is not part of the repository sources provided. The spec
fixes `boost: weight += amount` and
`decay: weight = max(0, weight * (1 - decay_rate))`. -/

/-- Modelled from the spec: explicit boost of an account weight. -/
def boostWeight (w amount : ℚ) : ℚ := w + amount

/-- Modelled from the spec: one decay invocation on an account weight. -/
def decayWeight (w rate : ℚ) : ℚ := max 0 (w * (1 - rate))

/-! ### Lemmas on the stable sort -/

theorem insertRanked_perm (e : RankedVisual) (l : List RankedVisual) :
    (insertRanked e l).Perm (e :: l) := by
  induction l with
  | nil => exact List.Perm.refl _
  | cons x xs ih =>
    unfold insertRanked
    by_cases h : x.priority < e.priority
    · simp only [if_pos h]
      exact (ih.cons x).trans (List.Perm.swap e x xs)
    · simp only [if_neg h]
      exact List.Perm.refl _

theorem sortRanked_perm (l : List RankedVisual) : (sortRanked l).Perm l := by
  induction l with
  | nil => exact List.Perm.refl _
  | cons e rest ih => exact (insertRanked_perm e (sortRanked rest)).trans (ih.cons e)

theorem insertRanked_sorted (e : RankedVisual) (l : List RankedVisual)
    (h : l.Pairwise (fun a b => a.priority ≤ b.priority)) :
    (insertRanked e l).Pairwise (fun a b => a.priority ≤ b.priority) := by
  induction l with
  | nil => simp [insertRanked]
  | cons x xs ih =>
    rw [List.pairwise_cons] at h
    unfold insertRanked
    by_cases hc : x.priority < e.priority
    · simp only [if_pos hc]
      rw [List.pairwise_cons]
      refine ⟨?_, ih h.2⟩
      intro y hy
      rcases List.mem_cons.mp (((insertRanked_perm e xs).mem_iff).mp hy) with hy | hy
      · subst hy; exact Nat.le_of_lt hc
      · exact h.1 y hy
    · simp only [if_neg hc]
      rw [List.pairwise_cons]
      refine ⟨?_, List.pairwise_cons.mpr h⟩
      intro y hy
      rcases List.mem_cons.mp hy with hy | hy
      · subst hy; exact Nat.le_of_not_lt hc
      · exact Nat.le_trans (Nat.le_of_not_lt hc) (h.1 y hy)

theorem sortRanked_sorted (l : List RankedVisual) :
    (sortRanked l).Pairwise (fun a b => a.priority ≤ b.priority) := by
  induction l with
  | nil => simp [sortRanked]
  | cons e rest ih => exact insertRanked_sorted e (sortRanked rest) ih

theorem insertRanked_filter (e : RankedVisual) (l : List RankedVisual) (p : Nat) :
    (insertRanked e l).filter (fun x => x.priority == p) =
      (if e.priority = p then [e] else []) ++ l.filter (fun x => x.priority == p) := by
  induction l with
  | nil =>
    by_cases hp : e.priority = p <;> simp [insertRanked, List.filter_cons, hp]
  | cons x xs ih =>
    unfold insertRanked
    by_cases hc : x.priority < e.priority
    · simp only [if_pos hc]
      by_cases hxp : x.priority = p
      · have hep : ¬ e.priority = p := by omega
        simp [List.filter_cons, hxp, hep] at ih ⊢
        exact ih
      · simp [List.filter_cons, hxp] at ih ⊢
        exact ih
    · simp only [if_neg hc]
      by_cases hep : e.priority = p <;> simp [List.filter_cons, hep]

theorem sortRanked_filter (l : List RankedVisual) (p : Nat) :
    (sortRanked l).filter (fun x => x.priority == p) =
      l.filter (fun x => x.priority == p) := by
  induction l with
  | nil => rfl
  | cons e rest ih =>
    show (insertRanked e (sortRanked rest)).filter (fun x => x.priority == p) = _
    rw [insertRanked_filter, ih]
    by_cases hep : e.priority = p <;> simp [List.filter_cons, hep]

/-! ### Lemmas on the top-visual section and the candidate loop -/

theorem topVisuals_cases (tv : Option ArticleTopVisual) :
    topVisuals tv = [] ∨
      ∃ v : DataVisual, topVisuals tv = [v] ∧ v.isTop = true ∧ v.kind ∈ DATA_KINDS := by
  match tv with
  | none => exact Or.inl rfl
  | some t =>
    rcases Bool.eq_false_or_eq_true (jsTruthy t.url) with hu | hu
    · rcases Bool.eq_false_or_eq_true
        (DATA_KINDS.contains (jsToLower (jsOr t.kind "visual"))) with hk | hk
      · have hk2 : jsToLower (jsOr t.kind "visual") ∈ DATA_KINDS := by simpa using hk
        have heq : topVisuals (some t) =
            [{ url := t.url.getD "", kind := jsToLower (jsOr t.kind "visual"), isTop := true,
               keyTakeaway := jsOr t.key_takeaway "",
               whyImportant := jsOr t.why_important "" }] := by
          simp [topVisuals, hu, hk2]
        exact Or.inr ⟨_, heq, rfl, hk2⟩
      · have hk2 : jsToLower (jsOr t.kind "visual") ∉ DATA_KINDS := by simpa using hk
        rcases Bool.eq_false_or_eq_true (looksDataLikeText
          (jsToLower (jsOr t.key_takeaway "" ++ " " ++ jsOr t.why_important ""))) with hl | hl
        · have heq : topVisuals (some t) =
              [{ url := t.url.getD "", kind := "chart", isTop := true,
                 keyTakeaway := jsOr t.key_takeaway "",
                 whyImportant := jsOr t.why_important "" }] := by
            simp [topVisuals, hu, hk2, hl]
          exact Or.inr ⟨_, heq, rfl, by simp [DATA_KINDS]⟩
        · exact Or.inl (by simp [topVisuals, hu, hk2, hl])
    · exact Or.inl (by simp [topVisuals, hu])

theorem topVisuals_length_le (tv : Option ArticleTopVisual) :
    (topVisuals tv).length ≤ 1 := by
  rcases topVisuals_cases tv with h | ⟨v, h, _, _⟩ <;> simp [h]

theorem mem_topVisuals_isTop (tv : Option ArticleTopVisual) (v : DataVisual)
    (hv : v ∈ topVisuals tv) : v.isTop = true := by
  rcases topVisuals_cases tv with h | ⟨w, h, hw, _⟩
  · rw [h] at hv; cases hv
  · rw [h] at hv
    rcases List.mem_singleton.mp hv with rfl
    exact hw

theorem mem_topVisuals_kind (tv : Option ArticleTopVisual) (v : DataVisual)
    (hv : v ∈ topVisuals tv) : v.kind ∈ DATA_KINDS := by
  rcases topVisuals_cases tv with h | ⟨w, h, _, hk⟩
  · rw [h] at hv; cases hv
  · rw [h] at hv
    rcases List.mem_singleton.mp hv with rfl
    exact hk

theorem collectExtras_cons_skip_url (seen : List String) (item : MediaItem)
    (rest : List MediaItem) (h : jsTruthy item.url = false) :
    collectExtras seen (item :: rest) = collectExtras seen rest := by
  simp [collectExtras, h]

theorem collectExtras_cons_skip_seen (seen : List String) (item : MediaItem)
    (rest : List MediaItem) (h : item.url.getD "" ∈ seen) :
    collectExtras seen (item :: rest) = collectExtras seen rest := by
  simp [collectExtras, h]

theorem collectExtras_cons_skip_irrelevant (seen : List String) (item : MediaItem)
    (rest : List MediaItem) (h1 : jsTruthy item.url = true)
    (h2 : item.url.getD "" ∉ seen)
    (h3 : isRelevantVisual item (inferKind item) = false) :
    collectExtras seen (item :: rest) = collectExtras seen rest := by
  simp [collectExtras, h1, h2, h3]

theorem collectExtras_cons_emit (seen : List String) (item : MediaItem)
    (rest : List MediaItem) (h1 : jsTruthy item.url = true)
    (h2 : item.url.getD "" ∉ seen)
    (h3 : isRelevantVisual item (inferKind item) = true) :
    collectExtras seen (item :: rest) =
      { priority := kindPriority
          (if DATA_KINDS.contains (inferKind item) then inferKind item else "chart")
        visual := { url := item.url.getD ""
                    kind := if DATA_KINDS.contains (inferKind item) then inferKind item
                            else "chart"
                    isTop := false
                    keyTakeaway := extractTakeaway item (inferKind item)
                    whyImportant := "" } }
        :: collectExtras (item.url.getD "" :: seen) rest := by
  simp [collectExtras, h1, h2, h3]

/-- Every entry the candidate loop emits is built from some input item: its
fields are the normalized kind, the kind-specific takeaway and the item's
URL, which moreover is not in the incoming seen set. -/
theorem collectExtras_spec : ∀ (seen : List String) (items : List MediaItem)
    (e : RankedVisual), e ∈ collectExtras seen items →
    ∃ item ∈ items,
      jsTruthy item.url = true ∧
      isRelevantVisual item (inferKind item) = true ∧
      e.visual.url = item.url.getD "" ∧
      e.visual.kind =
        (if DATA_KINDS.contains (inferKind item) then inferKind item else "chart") ∧
      e.visual.isTop = false ∧
      e.visual.keyTakeaway = extractTakeaway item (inferKind item) ∧
      e.visual.whyImportant = "" ∧
      e.priority = kindPriority e.visual.kind ∧
      e.visual.url ∉ seen := by
  intro seen items
  induction items generalizing seen with
  | nil => intro e he; cases he
  | cons item rest ih =>
    intro e he
    rcases Bool.eq_false_or_eq_true (jsTruthy item.url) with hu | hu
    · by_cases hs : item.url.getD "" ∈ seen
      · rw [collectExtras_cons_skip_seen seen item rest hs] at he
        obtain ⟨it, hmem, hrest⟩ := ih seen e he
        exact ⟨it, List.mem_cons_of_mem item hmem, hrest⟩
      · rcases Bool.eq_false_or_eq_true (isRelevantVisual item (inferKind item)) with hr | hr
        · rw [collectExtras_cons_emit seen item rest hu hs hr] at he
          rcases List.mem_cons.mp he with rfl | he
          · exact ⟨item, List.mem_cons_self item rest, hu, hr, rfl, rfl, rfl, rfl, rfl,
              rfl, hs⟩
          · obtain ⟨it, hmem, hfields⟩ := ih (item.url.getD "" :: seen) e he
            refine ⟨it, List.mem_cons_of_mem item hmem, ?_⟩
            refine ⟨hfields.1, hfields.2.1, hfields.2.2.1, hfields.2.2.2.1,
              hfields.2.2.2.2.1, hfields.2.2.2.2.2.1, hfields.2.2.2.2.2.2.1,
              hfields.2.2.2.2.2.2.2.1, ?_⟩
            intro hmem2
            exact hfields.2.2.2.2.2.2.2.2 (List.mem_cons_of_mem _ hmem2)
        · rw [collectExtras_cons_skip_irrelevant seen item rest hu hs hr] at he
          obtain ⟨it, hmem, hrest⟩ := ih seen e he
          exact ⟨it, List.mem_cons_of_mem item hmem, hrest⟩
    · rw [collectExtras_cons_skip_url seen item rest hu] at he
      obtain ⟨it, hmem, hrest⟩ := ih seen e he
      exact ⟨it, List.mem_cons_of_mem item hmem, hrest⟩

/-- The URLs the candidate loop emits are pairwise distinct. -/
theorem collectExtras_urls_nodup : ∀ (seen : List String) (items : List MediaItem),
    ((collectExtras seen items).map (fun e => e.visual.url)).Nodup := by
  intro seen items
  induction items generalizing seen with
  | nil => simp [collectExtras]
  | cons item rest ih =>
    rcases Bool.eq_false_or_eq_true (jsTruthy item.url) with hu | hu
    · by_cases hs : item.url.getD "" ∈ seen
      · rw [collectExtras_cons_skip_seen seen item rest hs]
        exact ih seen
      · rcases Bool.eq_false_or_eq_true (isRelevantVisual item (inferKind item)) with hr | hr
        · rw [collectExtras_cons_emit seen item rest hu hs hr]
          rw [List.map_cons, List.nodup_cons]
          refine ⟨?_, ih (item.url.getD "" :: seen)⟩
          intro hmem
          obtain ⟨e, hmem2, hurl⟩ := List.mem_map.mp hmem
          obtain ⟨it, _, hfields⟩ := collectExtras_spec _ _ e hmem2
          exact hfields.2.2.2.2.2.2.2.2 (by rw [hurl]; exact List.mem_cons_self _ _)
        · rw [collectExtras_cons_skip_irrelevant seen item rest hu hs hr]
          exact ih seen
    · rw [collectExtras_cons_skip_url seen item rest hu]
      exact ih seen

/-! ### Structural lemmas on the selector entry point -/

theorem buildArticleVisuals_pos (top : Option ArticleTopVisual)
    (items : Option (List MediaItem)) (n : Int) (h : 0 < n) :
    buildArticleVisuals top items n =
      topVisuals top ++
        ((sortRanked (collectExtras ((topVisuals top).map (fun v => v.url))
            (items.getD []))).take (n.toNat - (topVisuals top).length)).map
          (fun e => e.visual) := by
  unfold buildArticleVisuals
  rw [if_neg (by omega)]

theorem buildArticleVisuals_nonpos (top : Option ArticleTopVisual)
    (items : Option (List MediaItem)) (n : Int) (h : n ≤ 0) :
    buildArticleVisuals top items n = [] := by
  unfold buildArticleVisuals
  rw [if_pos h]

/-! ### Rendered depths of the quote recursion -/

theorem quoteNodeDepths_eq : ∀ (q : QuoteEmbed) (d : Nat), d ≤ 2 →
    quoteNodeDepths q d = List.range' d (min (chainLength q) (3 - d))
  | .mk _ _ _ _ _ none, d, hd => by
    have h1 : min 1 (3 - d) = 1 := by omega
    simp [quoteNodeDepths, chainLength, h1]
  | .mk i a an c ca (some sub), d, hd => by
    by_cases h : d < 2
    · have ih := quoteNodeDepths_eq sub (d + 1) (by omega)
      have hch : chainLength (.mk i a an c ca (some sub)) = 1 + chainLength sub := rfl
      have h2 : min (1 + chainLength sub) (3 - d) =
          min (chainLength sub) (3 - (d + 1)) + 1 := by omega
      show d :: (if d < 2 then quoteNodeDepths sub (d + 1) else []) = _
      rw [if_pos h, ih, hch, h2, List.range'_succ]
    · have hd2 : d = 2 := by omega
      subst hd2
      have hch : chainLength (.mk i a an c ca (some sub)) = 1 + chainLength sub := rfl
      have h2 : min (1 + chainLength sub) (3 - 2) = 1 := by omega
      show 2 :: (if 2 < 2 then quoteNodeDepths sub 3 else []) = _
      rw [if_neg (by omega), hch, h2]
      rfl

/-- `looksDataLikeText` in terms of the three regexes: a noise match always
forces `false`; otherwise either vocabulary match suffices. -/
theorem looksDataLikeText_iff (text : String) :
    looksDataLikeText text = true ↔
      noiseTest text = false ∧
        (textualDataTest text = true ∨ numericDataTest text = true) := by
  constructor
  · intro h
    unfold looksDataLikeText at h
    by_cases he : text = ""
    · rw [if_pos he] at h
      cases h
    · rw [if_neg he] at h
      rcases Bool.eq_false_or_eq_true (noiseTest text) with hn | hn
      · rw [if_pos hn] at h
        cases h
      · rw [if_neg (by rw [hn]; exact Bool.false_ne_true)] at h
        exact ⟨hn, by simpa using h⟩
  · rintro ⟨hn, hd⟩
    unfold looksDataLikeText
    have he : ¬ text = "" := by
      intro he
      subst he
      rcases hd with h | h
      · exact absurd h (by decide)
      · exact absurd h (by decide)
    rw [if_neg he, if_neg (by rw [hn]; exact Bool.false_ne_true)]
    rcases hd with h | h <;> simp [h]

/-- The top-visual section under the hint-relevance condition: exactly one
primary visual carrying the hint's URL. -/
theorem topVisuals_of_relevant (tv : ArticleTopVisual)
    (hurl : jsTruthy tv.url = true)
    (hrel : DATA_KINDS.contains (jsToLower (jsOr tv.kind "visual")) = true ∨
      looksDataLikeText
        (jsToLower (jsOr tv.key_takeaway "" ++ " " ++ jsOr tv.why_important "")) = true) :
    ∃ v : DataVisual, topVisuals (some tv) = [v] ∧ v.isTop = true ∧
      v.url = tv.url.getD "" := by
  rcases Bool.eq_false_or_eq_true
    (DATA_KINDS.contains (jsToLower (jsOr tv.kind "visual"))) with hk | hk
  · have hk2 : jsToLower (jsOr tv.kind "visual") ∈ DATA_KINDS := by simpa using hk
    exact ⟨{ url := tv.url.getD "", kind := jsToLower (jsOr tv.kind "visual"),
             isTop := true, keyTakeaway := jsOr tv.key_takeaway "",
             whyImportant := jsOr tv.why_important "" },
           by simp [topVisuals, hurl, hk2], rfl, rfl⟩
  · have hk2 : jsToLower (jsOr tv.kind "visual") ∉ DATA_KINDS := by simpa using hk
    have hl : looksDataLikeText
        (jsToLower (jsOr tv.key_takeaway "" ++ " " ++ jsOr tv.why_important "")) = true := by
      rcases hrel with h | h
      · rw [h] at hk
        cases hk
      · exact h
    exact ⟨{ url := tv.url.getD "", kind := "chart", isTop := true,
             keyTakeaway := jsOr tv.key_takeaway "",
             whyImportant := jsOr tv.why_important "" },
           by simp [topVisuals, hurl, hk2, hl], rfl, rfl⟩

/-- Taking a prefix of the sorted extras keeps URLs pairwise distinct. -/
theorem take_sorted_extras_urls_nodup (seen : List String) (items : List MediaItem)
    (k : Nat) :
    (((sortRanked (collectExtras seen items)).take k).map
      (fun e => e.visual.url)).Nodup := by
  have hperm : ((sortRanked (collectExtras seen items)).map (fun e => e.visual.url)).Perm
      ((collectExtras seen items).map (fun e => e.visual.url)) :=
    (sortRanked_perm _).map _
  have hnodup := hperm.nodup_iff.mpr (collectExtras_urls_nodup seen items)
  exact hnodup.sublist ((List.take_sublist k _).map _)

/-- Members of a truncated sorted extras list are members of the raw list. -/
theorem mem_take_sorted_extras (seen : List String) (items : List MediaItem)
    (k : Nat) (e : RankedVisual)
    (he : e ∈ (sortRanked (collectExtras seen items)).take k) :
    e ∈ collectExtras seen items :=
  (sortRanked_perm _).mem_iff.mp (List.take_subset _ _ he)

/-! ### Claim theorems -/

/-- C9: however deeply the quote chain nests, the `QuoteNode` recursion started
by `QuoteBlock` is bounded at depth 2: the rendered depths are exactly
`range (min (chainLength q) 3)`, so nodes at depths 0, 1 and 2 are rendered,
every rendered depth is at most 2 (a nested quote attached to the node at
depth 2 is never expanded), and at most three nodes are rendered for any
input chain (the recursion is total by construction). -/
theorem quote_block_depth_bounded (q : QuoteEmbed) :
    quoteBlockDepths q = List.range (min (chainLength q) 3) ∧
    (∀ d ∈ quoteBlockDepths q, d ≤ 2) ∧
    (quoteBlockDepths q).length = min (chainLength q) 3 := by
  have h := quoteNodeDepths_eq q 0 (by omega)
  have h0 : (3 : Nat) - 0 = 3 := rfl
  rw [quoteBlockDepths] at *
  rw [h, h0]
  refine ⟨(List.range_eq_range' _).symm, ?_, ?_⟩
  · intro d hd
    rw [List.mem_range'] at hd
    omega
  · rw [List.length_range']

/-- Witness for C9: a four-deep chain renders exactly the depths 0, 1, 2. -/
theorem quote_block_depth_bounded_witness :
    quoteBlockDepths (.mk "q0" "h0" none none none (some (.mk "q1" "h1" none none none
      (some (.mk "q2" "h2" none none none
        (some (.mk "q3" "h3" none none none none))))))) = [0, 1, 2] := by
  rw [(quote_block_depth_bounded _).1]
  rfl

/-- C1: a post's tier is a pure function of its score given by the fixed step
function `[8,10] to high_signal` (which also gates the alert path),
`[6,8) to market_relevant`, `[4,6) to news`, `[0,4) to noise`; in particular a
score of 8.0 yields high_signal and an alert candidate while 7.99 yields
neither. -/
theorem tier_step_function :
    (∀ s : ℚ, 0 ≤ s → s ≤ 10 →
      ((8 ≤ s → tierOfScore s = SignalTier.high_signal ∧ isAlertCandidate s = true) ∧
       (6 ≤ s → s < 8 →
         tierOfScore s = SignalTier.market_relevant ∧ isAlertCandidate s = false) ∧
       (4 ≤ s → s < 6 → tierOfScore s = SignalTier.news) ∧
       (s < 4 → tierOfScore s = SignalTier.noise))) ∧
    tierOfScore 8 = SignalTier.high_signal ∧ isAlertCandidate 8 = true ∧
    tierOfScore (799/100) = SignalTier.market_relevant ∧
    isAlertCandidate (799/100) = false := by
  constructor
  · intro s hs0 hs10
    refine ⟨?_, ?_, ?_, ?_⟩
    · intro h8
      refine ⟨?_, ?_⟩
      · rw [tierOfScore, if_pos h8]
      · simp only [isAlertCandidate, alertThreshold, decide_eq_true_eq]
        exact h8
    · intro h6 h8
      refine ⟨?_, ?_⟩
      · rw [tierOfScore, if_neg (by linarith), if_pos h6]
      · simp only [isAlertCandidate, alertThreshold, decide_eq_false_iff_not]
        linarith
    · intro h4 h6
      rw [tierOfScore, if_neg (by linarith), if_neg (by linarith), if_pos h4]
    · intro h4
      rw [tierOfScore, if_neg (by linarith), if_neg (by linarith), if_neg (by linarith)]
  · refine ⟨?_, ?_, ?_, ?_⟩
    · rw [tierOfScore, if_pos (by norm_num)]
    · simp only [isAlertCandidate, alertThreshold, decide_eq_true_eq]
      norm_num
    · rw [tierOfScore, if_neg (by norm_num), if_pos (by norm_num)]
    · simp only [isAlertCandidate, alertThreshold, decide_eq_false_iff_not]
      norm_num

/-- Witness for C1: the step function evaluated at the boundary score 7.99. -/
theorem tier_step_function_witness :
    tierOfScore (799/100) = SignalTier.market_relevant ∧
      isAlertCandidate (799/100) = false :=
  (tier_step_function.1 (799/100) (by norm_num) (by norm_num)).2.1
    (by norm_num) (by norm_num)

/-- C7: boost then one decay yields `max 0 ((w + amount) * (1 - rate))`; the
two operations do not commute (70 boosted by 5 then decayed at rate 0.05 gives
71.25, not the 71.5 of decay-then-boost); and decay applied twice to weight 100
at rate 0.05 gives 90.25 while a single invocation gives 95 — the ledger does
not deduplicate repeated decay. -/
theorem boost_decay_order :
    (∀ w amount rate : ℚ,
      decayWeight (boostWeight w amount) rate = max 0 ((w + amount) * (1 - rate))) ∧
    decayWeight (boostWeight 70 5) (5/100) = 285/4 ∧
    decayWeight (boostWeight 70 5) (5/100) ≠ boostWeight (decayWeight 70 (5/100)) 5 ∧
    decayWeight (decayWeight 100 (5/100)) (5/100) = 361/4 ∧
    decayWeight 100 (5/100) = 95 ∧
    decayWeight (decayWeight 100 (5/100)) (5/100) ≠ decayWeight 100 (5/100) := by
  have e95 : decayWeight 100 (5/100) = 95 := by
    have h : (100 : ℚ) * (1 - 5/100) = 95 := by norm_num
    rw [decayWeight, h]
    exact max_eq_right (by norm_num)
  have e1 : decayWeight (boostWeight 70 5) (5/100) = 285/4 := by
    have h : (boostWeight 70 5 : ℚ) * (1 - 5/100) = 285/4 := by
      rw [boostWeight]; norm_num
    rw [decayWeight, h]
    exact max_eq_right (by norm_num)
  have e2 : decayWeight (decayWeight 100 (5/100)) (5/100) = 361/4 := by
    rw [e95]
    have h : (95 : ℚ) * (1 - 5/100) = 361/4 := by norm_num
    rw [decayWeight, h]
    exact max_eq_right (by norm_num)
  have e3 : boostWeight (decayWeight 70 (5/100)) 5 = 143/2 := by
    have h : (70 : ℚ) * (1 - 5/100) = 133/2 := by norm_num
    rw [decayWeight, h, max_eq_right (by norm_num : (0:ℚ) ≤ 133/2), boostWeight]
    norm_num
  refine ⟨fun w amount rate => rfl, e1, ?_, e2, e95, ?_⟩
  · rw [e1, e3]; norm_num
  · rw [e2, e95]; norm_num

/-- C5: the selector's output never exceeds `maxItems` entries, and any
`maxItems ≤ 0` (including negative configuration errors) yields the empty
list rather than a fault. -/
theorem selector_output_bounded (top : Option ArticleTopVisual)
    (items : Option (List MediaItem)) (n : Int) :
    (n ≤ 0 → buildArticleVisuals top items n = []) ∧
    (buildArticleVisuals top items n).length ≤ n.toNat := by
  constructor
  · exact buildArticleVisuals_nonpos top items n
  · by_cases h : n ≤ 0
    · rw [buildArticleVisuals_nonpos top items n h]
      simp
    · rw [buildArticleVisuals_pos top items n (by omega)]
      rw [List.length_append, List.length_map, List.length_take]
      have ht := topVisuals_length_le top
      have hn : 1 ≤ n.toNat := by omega
      omega

/-- Witness for C5: a negative `maxItems` returns the empty list. -/
theorem selector_output_bounded_witness :
    buildArticleVisuals none none (-1) = [] :=
  (selector_output_bounded none none (-1)).1 (by norm_num)

/-- C8: the selector is a deterministic pure function — identical inputs give
identical outputs — and `maxItems = 0` always yields the empty list. -/
theorem selector_deterministic :
    (∀ (t1 t2 : Option ArticleTopVisual) (m1 m2 : Option (List MediaItem)) (n1 n2 : Int),
      t1 = t2 → m1 = m2 → n1 = n2 →
      buildArticleVisuals t1 m1 n1 = buildArticleVisuals t2 m2 n2) ∧
    (∀ (t : Option ArticleTopVisual) (m : Option (List MediaItem)),
      buildArticleVisuals t m 0 = []) := by
  constructor
  · intro t1 t2 m1 m2 n1 n2 h1 h2 h3
    rw [h1, h2, h3]
  · intro t m
    exact buildArticleVisuals_nonpos t m 0 (by omega)

/-- Witness for C8: determinism and the zero cap at concrete inputs. -/
theorem selector_deterministic_witness :
    buildArticleVisuals none none 5 = buildArticleVisuals none none 5 ∧
      buildArticleVisuals none none 0 = [] :=
  ⟨selector_deterministic.1 none none none none 5 5 rfl rfl rfl,
   selector_deterministic.2 none none⟩

/-- C2: a candidate is data-relevant exactly when its inferred kind is one of
chart/table/document/screenshot, or its concatenated text matches the
data-indicating vocabulary (textual or numeric patterns) while not matching
the noise vocabulary; a noise match always overrides a data-term match, so a
candidate matching both vocabularies is not selected on the text path. -/
theorem relevance_characterization (item : MediaItem) :
    (isRelevantVisual item (inferKind item) = true ↔
      (inferKind item ∈ DATA_KINDS ∨
        (noiseTest (buildTextBlob item) = false ∧
          (textualDataTest (buildTextBlob item) = true ∨
           numericDataTest (buildTextBlob item) = true)))) ∧
    (noiseTest (buildTextBlob item) = true → inferKind item ∉ DATA_KINDS →
      isRelevantVisual item (inferKind item) = false) := by
  have hrel : isRelevantVisual item (inferKind item) = true ↔
      (inferKind item ∈ DATA_KINDS ∨
        looksDataLikeText (buildTextBlob item) = true) := by
    unfold isRelevantVisual
    rcases Bool.eq_false_or_eq_true (DATA_KINDS.contains (inferKind item)) with hk | hk
    · have hk2 : inferKind item ∈ DATA_KINDS := by simpa using hk
      rw [if_pos hk]
      simp [hk2]
    · have hk2 : inferKind item ∉ DATA_KINDS := by simpa using hk
      rw [if_neg (by rw [hk]; exact Bool.false_ne_true)]
      simp [hk2]
  constructor
  · rw [hrel, looksDataLikeText_iff]
  · intro hn hk
    rcases Bool.eq_false_or_eq_true (isRelevantVisual item (inferKind item)) with h | h
    · exfalso
      rcases hrel.mp h with hmem | hlooks
      · exact hk hmem
      · obtain ⟨hn2, _⟩ := (looksDataLikeText_iff _).mp hlooks
        rw [hn] at hn2
        cases hn2
    · exact h

/-- Witness for C2: an item whose text matches both the noise vocabulary
(`meme`) and the data vocabulary (`revenue`) is not relevant. -/
theorem relevance_characterization_witness :
    isRelevantVisual { short_description := some "meme revenue" }
      (inferKind { short_description := some "meme revenue" }) = false :=
  (relevance_characterization { short_description := some "meme revenue" }).2
    (by decide) (by decide)

/-- C3: a top-visual hint with a truthy URL that passes the data-relevance
check is always emitted as the first output element, flagged as the primary
visual, and its URL appears in no other output element. -/
theorem top_hint_selected_first (tv : ArticleTopVisual)
    (items : Option (List MediaItem)) (n : Int) (hn : 1 ≤ n)
    (hurl : jsTruthy tv.url = true)
    (hrel : DATA_KINDS.contains (jsToLower (jsOr tv.kind "visual")) = true ∨
      looksDataLikeText
        (jsToLower (jsOr tv.key_takeaway "" ++ " " ++ jsOr tv.why_important "")) = true) :
    ∃ v rest, buildArticleVisuals (some tv) items n = v :: rest ∧
      v.isTop = true ∧ v.url = tv.url.getD "" ∧
      v.url ∉ rest.map (fun x => x.url) := by
  obtain ⟨v, heq, hisTop, hvurl⟩ := topVisuals_of_relevant tv hurl hrel
  rw [buildArticleVisuals_pos (some tv) items n (by omega), heq]
  refine ⟨v, _, rfl, hisTop, hvurl, ?_⟩
  intro hmem
  obtain ⟨w, hw, hwurl⟩ := List.mem_map.mp hmem
  obtain ⟨r, hr, rfl⟩ := List.mem_map.mp hw
  have hr2 := mem_take_sorted_extras _ _ _ r hr
  obtain ⟨it, _, hf⟩ := collectExtras_spec _ _ r hr2
  apply hf.2.2.2.2.2.2.2.2
  rw [hwurl]
  simp

/-- Witness for C3: a chart-kind hint at concrete inputs comes out first. -/
theorem top_hint_selected_first_witness :
    ∃ v rest, buildArticleVisuals
        (some { url := some "u", kind := some "chart",
                key_takeaway := none, why_important := none })
        (some [{ url := some "w", kind := some "table" }]) 5 = v :: rest ∧
      v.isTop = true ∧
      v.url = (some "u" : Option String).getD "" ∧
      v.url ∉ rest.map (fun x => x.url) :=
  top_hint_selected_first
    { url := some "u", kind := some "chart", key_takeaway := none, why_important := none }
    (some [{ url := some "w", kind := some "table" }]) 5
    (by norm_num) (by decide) (Or.inl (by decide))

/-- C4: after the primary top visual, the output is ordered by the fixed kind
priority (chart 0 < table 1 < screenshot 2 < document 3 < any other kind 9),
and the sort of the extras is the stable sort by priority: a permutation that
is pairwise ordered and preserves, within every priority class, the original
candidate order. -/
theorem extras_priority_ordered (top : Option ArticleTopVisual)
    (items : Option (List MediaItem)) (n : Int) :
    List.Pairwise (fun a b => kindPriority a.kind ≤ kindPriority b.kind)
      ((buildArticleVisuals top items n).drop (topVisuals top).length) ∧
    (sortRanked (collectExtras ((topVisuals top).map (fun v => v.url))
        (items.getD []))).Pairwise (fun a b => a.priority ≤ b.priority) ∧
    (sortRanked (collectExtras ((topVisuals top).map (fun v => v.url))
        (items.getD []))).Perm
      (collectExtras ((topVisuals top).map (fun v => v.url)) (items.getD [])) ∧
    (∀ p : Nat,
      (sortRanked (collectExtras ((topVisuals top).map (fun v => v.url))
          (items.getD []))).filter (fun e => e.priority == p) =
        (collectExtras ((topVisuals top).map (fun v => v.url))
          (items.getD [])).filter (fun e => e.priority == p)) := by
  refine ⟨?_, sortRanked_sorted _, sortRanked_perm _, fun p => sortRanked_filter _ p⟩
  by_cases h : n ≤ 0
  · rw [buildArticleVisuals_nonpos top items n h]
    simp
  · rw [buildArticleVisuals_pos top items n (by omega), List.drop_left]
    rw [List.pairwise_map]
    apply List.Pairwise.sublist (List.take_sublist _ _)
    refine List.Pairwise.imp_of_mem ?_ (sortRanked_sorted _)
    intro a b ha hb hab
    obtain ⟨ita, _, hfa⟩ := collectExtras_spec _ _ a ((sortRanked_perm _).mem_iff.mp ha)
    obtain ⟨itb, _, hfb⟩ := collectExtras_spec _ _ b ((sortRanked_perm _).mem_iff.mp hb)
    rw [← hfa.2.2.2.2.2.2.2.1, ← hfb.2.2.2.2.2.2.2.1]
    exact hab

/-- C10: no two output visuals share a URL (the top visual's URL and every
emitted candidate URL are excluded from later selection through the seen set),
and every output visual's kind is one of the four data kinds — relevant
candidates of any other inferred kind are re-labeled chart. -/
theorem output_urls_nodup_and_kinds (top : Option ArticleTopVisual)
    (items : Option (List MediaItem)) (n : Int) :
    ((buildArticleVisuals top items n).map (fun v => v.url)).Nodup ∧
    (∀ v ∈ buildArticleVisuals top items n, v.kind ∈ DATA_KINDS) ∧
    (∀ v ∈ buildArticleVisuals top items n, v.isTop = false →
      ∃ item ∈ items.getD [],
        v.kind = if DATA_KINDS.contains (inferKind item) then inferKind item
                 else "chart") := by
  by_cases h : n ≤ 0
  · rw [buildArticleVisuals_nonpos top items n h]
    refine ⟨List.nodup_nil, ?_, ?_⟩
    · intro v hv
      cases hv
    · intro v hv hn2
      cases hv
  · rw [buildArticleVisuals_pos top items n (by omega)]
    refine ⟨?_, ?_, ?_⟩
    · rw [List.map_append]
      apply List.Nodup.append
      · rcases topVisuals_cases top with h1 | ⟨v, h1, _, _⟩ <;> rw [h1] <;> simp
      · rw [List.map_map]
        exact take_sorted_extras_urls_nodup _ _ _
      · intro u hu1 hu2
        obtain ⟨w, hw, hwu⟩ := List.mem_map.mp hu2
        obtain ⟨r, hr, rfl⟩ := List.mem_map.mp hw
        have hr2 := mem_take_sorted_extras _ _ _ r hr
        obtain ⟨it, _, hf⟩ := collectExtras_spec _ _ r hr2
        apply hf.2.2.2.2.2.2.2.2
        rw [hwu]
        exact hu1
    · intro v hv
      rcases List.mem_append.mp hv with hv | hv
      · exact mem_topVisuals_kind top v hv
      · obtain ⟨e, he, rfl⟩ := List.mem_map.mp hv
        have he2 := mem_take_sorted_extras _ _ _ e he
        obtain ⟨it, _, hf⟩ := collectExtras_spec _ _ e he2
        rw [hf.2.2.2.1]
        rcases Bool.eq_false_or_eq_true (DATA_KINDS.contains (inferKind it)) with hk | hk
        · rw [if_pos hk]
          simpa using hk
        · rw [if_neg (by rw [hk]; exact Bool.false_ne_true)]
          simp [DATA_KINDS]
    · intro v hv hnotTop
      rcases List.mem_append.mp hv with hv | hv
      · rw [mem_topVisuals_isTop top v hv] at hnotTop
        cases hnotTop
      · obtain ⟨r, hr, rfl⟩ := List.mem_map.mp hv
        have hr2 := mem_take_sorted_extras _ _ _ r hr
        obtain ⟨it, hmem, hf⟩ := collectExtras_spec _ _ r hr2
        exact ⟨it, hmem, hf.2.2.2.1⟩

/-- Witness for C10: duplicate candidate URLs and a candidate repeating the
top hint's URL contribute one output entry each, all with data kinds. -/
theorem output_urls_nodup_and_kinds_witness :
    ((buildArticleVisuals (some { url := some "u1", kind := some "chart" })
        (some [{ url := some "u1", kind := some "table" },
               { url := some "u2", kind := some "table" },
               { url := some "u2", kind := some "chart" }]) 5).map
      (fun v => v.url)).Nodup :=
  (output_urls_nodup_and_kinds (some { url := some "u1", kind := some "chart" })
    (some [{ url := some "u1", kind := some "table" },
           { url := some "u2", kind := some "table" },
           { url := some "u2", kind := some "chart" }]) 5).1

/-- C6: takeaway text is extracted kind-specifically — chart: insight, else
implication, else description; table: summary, else description;
document/screenshot: prose summary, else short description; any other kind:
short description (empty when absent) — and every non-top selected visual
carries the takeaway extracted this way from its source item. -/
theorem takeaway_kind_specific :
    (∀ (item : MediaItem) (c : ChartAnalysis) (s : String), item.chart = some c →
      c.insight = some s → extractTakeaway item "chart" = s) ∧
    (∀ (item : MediaItem) (c : ChartAnalysis) (s : String), item.chart = some c →
      c.insight = none → c.implication = some s → extractTakeaway item "chart" = s) ∧
    (∀ (item : MediaItem) (c : ChartAnalysis) (s : String), item.chart = some c →
      c.insight = none → c.implication = none → c.description = some s →
      extractTakeaway item "chart" = s) ∧
    (∀ (item : MediaItem) (c : ChartAnalysis), item.chart = some c →
      c.insight = none → c.implication = none → c.description = none →
      extractTakeaway item "chart" = "") ∧
    (∀ item : MediaItem, item.chart = none → extractTakeaway item "chart" = "") ∧
    (∀ (item : MediaItem) (t : TableAnalysis) (s : String), item.table = some t →
      t.summary = some s → extractTakeaway item "table" = s) ∧
    (∀ (item : MediaItem) (t : TableAnalysis), item.table = some t →
      t.summary = none → extractTakeaway item "table" = t.description.getD "") ∧
    (∀ item : MediaItem, item.table = none → extractTakeaway item "table" = "") ∧
    (∀ (item : MediaItem) (k : String), (k = "document" ∨ k = "screenshot") →
      ∀ s, item.prose_summary = some s → extractTakeaway item k = s) ∧
    (∀ (item : MediaItem) (k : String), (k = "document" ∨ k = "screenshot") →
      item.prose_summary = none →
      extractTakeaway item k = item.short_description.getD "") ∧
    (∀ (item : MediaItem) (k : String), k ≠ "chart" → k ≠ "table" →
      k ≠ "document" → k ≠ "screenshot" →
      extractTakeaway item k = item.short_description.getD "") ∧
    (∀ (top : Option ArticleTopVisual) (items : Option (List MediaItem)) (n : Int)
      (v : DataVisual), v ∈ buildArticleVisuals top items n → v.isTop = false →
      ∃ item ∈ items.getD [], v.keyTakeaway = extractTakeaway item (inferKind item) ∧
        v.url = item.url.getD "") := by
  refine ⟨?_, ?_, ?_, ?_, ?_, ?_, ?_, ?_, ?_, ?_, ?_, ?_⟩
  · intro item c s hc hi
    simp [extractTakeaway, hc, hi]
  · intro item c s hc hi him
    simp [extractTakeaway, hc, hi, him]
  · intro item c s hc hi him hd
    simp [extractTakeaway, hc, hi, him, hd]
  · intro item c hc hi him hd
    simp [extractTakeaway, hc, hi, him, hd]
  · intro item hc
    simp [extractTakeaway, hc]
  · intro item t s ht hs
    simp [extractTakeaway, ht, hs]
  · intro item t ht hs
    simp [extractTakeaway, ht, hs]
  · intro item ht
    simp [extractTakeaway, ht]
  · rintro item k (rfl | rfl) s hp <;> simp [extractTakeaway, hp]
  · rintro item k (rfl | rfl) hp <;> simp [extractTakeaway, hp]
  · intro item k h1 h2 h3 h4
    simp [extractTakeaway, h1, h2, h3, h4]
  · intro top items n v hv hnotTop
    by_cases h : n ≤ 0
    · rw [buildArticleVisuals_nonpos top items n h] at hv
      cases hv
    · rw [buildArticleVisuals_pos top items n (by omega)] at hv
      rcases List.mem_append.mp hv with hv | hv
      · rw [mem_topVisuals_isTop top v hv] at hnotTop
        cases hnotTop
      · obtain ⟨r, hr, rfl⟩ := List.mem_map.mp hv
        have hr2 := mem_take_sorted_extras _ _ _ r hr
        obtain ⟨it, hmem, hf⟩ := collectExtras_spec _ _ r hr2
        exact ⟨it, hmem, hf.2.2.2.2.2.1, hf.2.2.1⟩

end Twag
